import Mathlib

/-!
Shallow embedding of the scoring / skill-aggregation / screen-time logic of
the Tetraverse arcade (src/src/App.tsx).  JavaScript numbers are modelled as
rationals (ℚ), `Math.round` as `jsRound` (round half towards +∞), integer
results of `Math.round`/`Math.min`/`Math.max` chains as `Int`, JS objects
used as string-keyed maps as insertion-ordered association lists, and
optional values / absent object keys as `Option`.
-/

/-- JavaScript `Math.round`: rounds half-way cases towards positive infinity. -/
def jsRound (x : ℚ) : Int := ⌊x + 1/2⌋

/-! ## Screen-time countdown (App.tsx lines 249-270, 1953-1982, 2036-2038, 2132, 2736-2743) -/

/-- The `ScreenTimeState` record of App.tsx. -/
structure ScreenTimeState where
  limitMinutes : Option Int
  remainingSeconds : Int
  isActive : Bool
deriving DecidableEq, Repr

/-- Source `onSetScreenTime` (App.tsx 2736-2743): unconditionally installs a fresh limit. -/
def onSetScreenTime (min : Int) : ScreenTimeState :=
  { limitMinutes := some min, remainingSeconds := min * 60, isActive := true }

/-- Source `handleScreenTimeSubmit` (App.tsx 249-270): `none` models a missing or
non-numeric form value (`Number(...)` yields `NaN`); `!minutes || minutes <= 0`
clears the limit, otherwise the limit is installed. -/
def handleScreenTimeSubmit (minutes : Option Int) : ScreenTimeState :=
  match minutes with
  | none => { limitMinutes := none, remainingSeconds := 0, isActive := false }
  | some m =>
    if m ≤ 0 then { limitMinutes := none, remainingSeconds := 0, isActive := false }
    else { limitMinutes := some m, remainingSeconds := m * 60, isActive := true }

/-- One firing of the one-second interval of the screen-time effect
(App.tsx 1959-1982).  The effect is only installed while
`isActive && remainingSeconds > 0`; the callback decrements and deactivates
when the result reaches 0. -/
def screenTimeTick (st : ScreenTimeState) : ScreenTimeState :=
  if st.isActive = true ∧ 0 < st.remainingSeconds then
    if st.remainingSeconds - 1 ≤ 0 then
      { st with remainingSeconds := 0, isActive := false }
    else
      { st with remainingSeconds := st.remainingSeconds - 1 }
  else st

/-- Whether a firing of the interval from state `st` plays the failure sound
(`playSound("fail")` in the `next <= 0` branch of the callback). -/
def tickPlaysFailCue (st : ScreenTimeState) : Bool :=
  st.isActive && decide (0 < st.remainingSeconds) && decide (st.remainingSeconds - 1 ≤ 0)

/-- Source `isLockedByScreenTime` (App.tsx 2036-2038). -/
def isLockedByScreenTime (st : ScreenTimeState) : Bool :=
  st.limitMinutes.isSome && (!st.isActive || decide (st.remainingSeconds ≤ 0))

/-- Source `canPlay` (App.tsx 2132). -/
def canPlay (st : ScreenTimeState) : Bool :=
  !isLockedByScreenTime st

/-! ## Metrics derivation and points formula (App.tsx 2040-2089) -/

/-- The keys of the raw `metrics` bag that `recordGameResult` probes.
A `none` field models an absent key. -/
structure Metrics where
  avgHoldTime : Option ℚ
  concentration : Option ℚ
  accuracy : Option ℚ
  reactionScore : Option ℚ
  persistence : Option ℚ
deriving DecidableEq, Repr

/-- The `derived` record built by `recordGameResult` (App.tsx 2054-2083);
a `none` field models a key that was never assigned. -/
structure Derived where
  concentration : Option Int
  accuracy : Option Int
  reactionScore : Option Int
  persistence : Option Int
deriving DecidableEq, Repr

/-- The derived-metrics block of `recordGameResult` (App.tsx 2053-2083). -/
def deriveMetrics (score : ℚ) (attempts : Int) (metrics : Option Metrics) : Derived :=
  let concentration : Option Int :=
    match metrics.bind (fun m => m.avgHoldTime) with
    | some avg => some (min 100 (jsRound (avg / 3 * 100)))
    | none =>
      match metrics.bind (fun m => m.concentration) with
      | some c => some (min 100 (jsRound c))
      | none => none
  let accuracy : Option Int :=
    match metrics.bind (fun m => m.accuracy) with
    | some a => some (min 100 (jsRound a))
    | none =>
      let attemptFactor : Int := max 1 attempts
      some (min 100 (jsRound (score / 100 * 100 * (1 / (attemptFactor : ℚ)) * (3/2))))
  let reactionScore : Option Int :=
    match metrics.bind (fun m => m.reactionScore) with
    | some r => some (min 100 (jsRound r))
    | none => some (min 100 (jsRound (score * (9/10))))
  let persistence : Option Int :=
    match metrics.bind (fun m => m.persistence) with
    | some p => some (max 0 (min 100 (jsRound (100 - (p - 1) * 12))))
    | none => none
  { concentration := concentration, accuracy := accuracy,
    reactionScore := reactionScore, persistence := persistence }

/-- Source `basePoints` (App.tsx 2086). -/
def basePoints (score : ℚ) : Int :=
  max 1 (jsRound (score / 12))

/-- Source `bonus` (App.tsx 2088): `(derived.x || 0)` reads 0 for an absent key. -/
def bonusPoints (d : Derived) : Int :=
  jsRound (((d.concentration.getD 0 + d.accuracy.getD 0 + d.reactionScore.getD 0 : Int) : ℚ)
    / 300 * 5)

/-- Source `earnedPoints` (App.tsx 2089). -/
def earnedPoints (score : ℚ) (attempts : Int) (metrics : Option Metrics) : Int :=
  basePoints score + bonusPoints (deriveMetrics score attempts metrics)

/-! ## Player profile and the profile aggregator (App.tsx 1690-1714, 2092-2129, 2754-2763) -/

/-- The `goals` metadata of a game (always has all three lists when present). -/
structure Goals where
  montessori : List String
  waldorf : List String
  intelligences : List String
deriving DecidableEq, Repr

/-- One completed round (`GameResult`). -/
structure GameResult where
  gameId : String
  score : ℚ
  attempts : Int
  timestamp : Int
  goals : Option Goals
  metrics : Option Metrics
deriving DecidableEq, Repr

/-- One `pointsHistory` ledger entry. -/
structure PointsEntry where
  timestamp : Int
  delta : Int
  reason : String
deriving DecidableEq, Repr

/-- Source `PlayerProfile` (hydrated: every field populated). -/
structure PlayerProfile where
  name : String
  age : Option Int
  avatarUrl : Option String
  points : Int
  learningProfile : List (String × ℚ)
  gameResults : List GameResult
  pointsHistory : List PointsEntry
  inventory : List String
deriving DecidableEq, Repr

/-- Source `createEmptyPlayer` (App.tsx 1690-1699). -/
def createEmptyPlayer : PlayerProfile :=
  { name := "", age := none, avatarUrl := none, points := 0,
    learningProfile := [], gameResults := [], pointsHistory := [], inventory := [] }

/-- Assignment `lp[k] = (lp[k] || 0) + v` on a JS object viewed as an insertion-ordered
association list: update the (unique) existing entry, else append. -/
def lpAdd : List (String × ℚ) → String → ℚ → List (String × ℚ)
  | [], k, v => [(k, v)]
  | (k', v') :: rest, k, v =>
    if k' = k then (k', v' + v) :: rest
    else (k', v') :: lpAdd rest k v

/-- Read `lp[k]` with `|| 0` (JS property read, absent key reads as 0). -/
def lpGet : List (String × ℚ) → String → ℚ
  | [], _ => 0
  | (k', v') :: rest, k => if k' = k then v' else lpGet rest k

/-- Entries `Object.entries(derived)` in assignment order
(concentration, accuracy, reactionScore, persistence). -/
def derivedEntries (d : Derived) : List (String × Int) :=
  (match d.concentration with | some v => [("concentration", v)] | none => []) ++
  (match d.accuracy with | some v => [("accuracy", v)] | none => []) ++
  (match d.reactionScore with | some v => [("reactionScore", v)] | none => []) ++
  (match d.persistence with | some v => [("persistence", v)] | none => [])

/-- The profile update of `recordGameResult` (App.tsx 2040-2130): derives
metrics, computes the point award, accumulates goal tags and derived metrics
into `learningProfile`, and appends to `gameResults` and `pointsHistory`. -/
def recordGameResult (gameId : String) (score : ℚ) (attempts : Int)
    (goals : Option Goals) (metrics : Option Metrics) (timestamp : Int)
    (prev : PlayerProfile) : PlayerProfile :=
  let derived := deriveMetrics score attempts metrics
  let earned := earnedPoints score attempts metrics
  let result : GameResult :=
    { gameId := gameId, score := score, attempts := attempts,
      timestamp := timestamp, goals := goals, metrics := metrics }
  let lp1 :=
    match goals with
    | some g =>
      let a := g.intelligences.foldl (fun acc t => lpAdd acc t score) prev.learningProfile
      let b := g.montessori.foldl (fun acc t => lpAdd acc t score) a
      g.waldorf.foldl (fun acc t => lpAdd acc t score) b
    | none => prev.learningProfile
  let lp2 := (derivedEntries derived).foldl (fun acc kv => lpAdd acc kv.1 (kv.2 : ℚ)) lp1
  { prev with
    points := prev.points + earned,
    learningProfile := lp2,
    gameResults := prev.gameResults ++ [result],
    pointsHistory := prev.pointsHistory ++
      [{ timestamp := timestamp, delta := earned, reason := gameId }] }

/-- The `onRedeem` handler of the prize shop (App.tsx 2754-2763). -/
def onRedeem (cost : Int) (prize : String) (timestamp : Int) (p : PlayerProfile) :
    PlayerProfile :=
  { p with
    points := max 0 (p.points - cost),
    inventory := p.inventory ++ [prize],
    pointsHistory := p.pointsHistory ++
      [{ timestamp := timestamp, delta := -cost, reason := "redeem:" ++ prize }] }

/-! ## Event sequences over a profile -/

/-- A profile-mutating event: a completed round or a prize redemption. -/
inductive AppEvent where
  | game (gameId : String) (score : ℚ) (attempts : Int)
      (goals : Option Goals) (metrics : Option Metrics) (timestamp : Int)
  | redeem (cost : Int) (prize : String) (timestamp : Int)
deriving DecidableEq, Repr

/-- Apply one event to a profile. -/
def applyEvent (p : PlayerProfile) : AppEvent → PlayerProfile
  | .game gameId score attempts goals metrics ts =>
    recordGameResult gameId score attempts goals metrics ts p
  | .redeem cost prize ts => onRedeem cost prize ts p

/-- Run a sequence of events from the empty profile. -/
def runEvents (evs : List AppEvent) : PlayerProfile :=
  evs.foldl applyEvent createEmptyPlayer

/-- Whether an event is a redemption. -/
def isRedeemEvent : AppEvent → Bool
  | .redeem _ _ _ => true
  | _ => false

/-- A present metric value is non-negative. -/
def optNonneg : Option ℚ → Bool
  | none => true
  | some x => decide (0 ≤ x)

/-- Every metric value actually supplied by a game is non-negative
(true of all `onFinish` call sites in `src/src/games`). -/
def metricsOk : Option Metrics → Bool
  | none => true
  | some m =>
    optNonneg m.avgHoldTime && optNonneg m.concentration && optNonneg m.accuracy &&
      optNonneg m.reactionScore && optNonneg m.persistence

/-- A well-formed event: rounds produced by the games report a non-negative
score and non-negative raw metrics; redemptions are unconstrained. -/
def eventOk : AppEvent → Bool
  | .game _ score _ _ metrics _ => decide (0 ≤ score) && metricsOk metrics
  | .redeem _ _ _ => true

/-! ## Stored-profile hydration (App.tsx 1690-1714) -/

/-- A parsed stored profile object: each `none` field models an absent key. -/
structure PartialPlayer where
  name : Option String
  age : Option (Option Int)
  avatarUrl : Option (Option String)
  points : Option Int
  learningProfile : Option (List (String × ℚ))
  gameResults : Option (List GameResult)
  pointsHistory : Option (List PointsEntry)
  inventory : Option (List String)
deriving DecidableEq, Repr

/-- Source `hydratePlayer` (App.tsx 1701-1704): spread of `createEmptyPlayer`
overridden by the keys present in `data` (or nothing when `data` is null). -/
def hydratePlayer (data : Option PartialPlayer) : PlayerProfile :=
  match data with
  | none => createEmptyPlayer
  | some d =>
    { name := d.name.getD createEmptyPlayer.name,
      age := d.age.getD createEmptyPlayer.age,
      avatarUrl := d.avatarUrl.getD createEmptyPlayer.avatarUrl,
      points := d.points.getD createEmptyPlayer.points,
      learningProfile := d.learningProfile.getD createEmptyPlayer.learningProfile,
      gameResults := d.gameResults.getD createEmptyPlayer.gameResults,
      pointsHistory := d.pointsHistory.getD createEmptyPlayer.pointsHistory,
      inventory := d.inventory.getD createEmptyPlayer.inventory }

/-- The possible states of the persisted `playerProfile` storage slot. -/
inductive StoredProfile where
  | missing
  | unparseable
  | parsed (d : PartialPlayer)
deriving Repr

/-- Source `loadStoredPlayer` (App.tsx 1706-1714): a missing or empty raw value and a
`JSON.parse` failure both fall through to `createEmptyPlayer`; a parsed object
is hydrated. -/
def loadStoredPlayer : StoredProfile → PlayerProfile
  | .missing => createEmptyPlayer
  | .unparseable => createEmptyPlayer
  | .parsed d => hydratePlayer (some d)

/-- Number of occurrences of tag `t` across the three goal lists. -/
def tagCount (goals : Option Goals) (t : String) : Nat :=
  match goals with
  | none => 0
  | some g => g.intelligences.count t + g.montessori.count t + g.waldorf.count t

/-- The keys `recordGameResult` may add to `learningProfile` besides goal tags. -/
def metricKeys : List String :=
  ["concentration", "accuracy", "reactionScore", "persistence"]

/-- Sum of the values an entry list contributes at key `k`. -/
def entrySumQ (es : List (String × Int)) (k : String) : ℚ :=
  (es.map (fun kv => if kv.1 = k then (kv.2 : ℚ) else 0)).sum

/-- The per-call increment `recordGameResult` applies to `learningProfile[k]`:
the score once per occurrence of `k` in the goal lists, plus the derived
metric stored under `k` when present. -/
def lpDelta (score : ℚ) (attempts : Int) (goals : Option Goals)
    (metrics : Option Metrics) (k : String) : ℚ :=
  score * (tagCount goals k : ℚ) +
    entrySumQ (derivedEntries (deriveMetrics score attempts metrics)) k

/-- A concrete goals record whose tag "Focus" sits in two of the three lists. -/
def focusGoals : Goals :=
  { montessori := ["Focus"], waldorf := ["Focus"],
    intelligences := ["Visual-Spatial"] }

/-! ## Helper lemmas -/

theorem jsRound_nonneg {x : ℚ} (hx : 0 ≤ x) : 0 ≤ jsRound x := by
  unfold jsRound
  exact Int.le_floor.mpr (by push_cast; linarith)

theorem min100_nonneg {v : Int} (hv : 0 ≤ v) : 0 ≤ min 100 v :=
  le_min (by norm_num) hv

/-! ## C1, C2 -/

/-- C1: for every completed round, `earnedPoints = basePoints + bonus` with
`basePoints = max(1, round(score/12))` and
`bonus = round((concentration + accuracy + reactionScore)/300*5)` over the
derived metrics (absent treated as 0); the derived persistence value
contributes nothing to the bonus. -/
theorem earnedPoints_formula (score : ℚ) (attempts : Int) (metrics : Option Metrics) :
    (earnedPoints score attempts metrics =
      max 1 (jsRound (score / 12)) +
        jsRound ((((deriveMetrics score attempts metrics).concentration.getD 0 +
          (deriveMetrics score attempts metrics).accuracy.getD 0 +
          (deriveMetrics score attempts metrics).reactionScore.getD 0 : Int) : ℚ) / 300 * 5))
    ∧ (∀ (m : Metrics) (p : Option ℚ),
        earnedPoints score attempts (some { m with persistence := p }) =
          earnedPoints score attempts (some m))
    ∧ (∀ (d : Derived) (p : Option Int),
        bonusPoints { d with persistence := p } = bonusPoints d) := by
  refine ⟨rfl, ?_, ?_⟩
  · intro m p
    cases m
    rfl
  · intro d p
    cases d
    rfl

/-- C2: with no raw metrics supplied, the derived-metrics calculator yields
`accuracy = min(100, round(score/100*100*(1/max(1,attempts))*1.5))` and
`reactionScore = min(100, round(score*0.9))`, and omits `concentration` and
`persistence` (absent, not zero-filled); an all-absent metrics bag behaves the
same as an absent bag. -/
theorem deriveMetrics_empty_bag (score : ℚ) (attempts : Int) :
    (deriveMetrics score attempts none =
      { concentration := none,
        accuracy := some (min 100
          (jsRound (score / 100 * 100 * (1 / ((max 1 attempts : Int) : ℚ)) * (3/2)))),
        reactionScore := some (min 100 (jsRound (score * (9/10)))),
        persistence := none })
    ∧ deriveMetrics score attempts
        (some { avgHoldTime := none, concentration := none, accuracy := none,
                reactionScore := none, persistence := none }) =
        deriveMetrics score attempts none
    ∧ (derivedEntries (deriveMetrics score attempts none)).map Prod.fst =
        ["accuracy", "reactionScore"] :=
  ⟨rfl, rfl, rfl⟩

/-! ## C4, C10 -/

/-- C4: redeeming `(cost, prizeLabel)` clamps points at
`max(0, points − cost)`, appends the prize to the inventory and appends a
`delta = −cost`, `reason = "redeem:"+prizeLabel` ledger entry, with no
affordability precondition; in particular from 10 points, redeeming the
5-point Lollipop leaves 5 points, the Lollipop in inventory, and the matching
ledger entry. -/
theorem onRedeem_effect (cost : Int) (prize : String) (ts : Int) (p : PlayerProfile) :
    (onRedeem cost prize ts p =
      { p with points := max 0 (p.points - cost),
               inventory := p.inventory ++ [prize],
               pointsHistory := p.pointsHistory ++
                 [{ timestamp := ts, delta := -cost, reason := "redeem:" ++ prize }] })
    ∧ (onRedeem 5 "🍭 Lollipop" ts { createEmptyPlayer with points := 10 }).points = 5
    ∧ (onRedeem 5 "🍭 Lollipop" ts { createEmptyPlayer with points := 10 }).inventory =
        ["🍭 Lollipop"]
    ∧ (onRedeem 5 "🍭 Lollipop" ts { createEmptyPlayer with points := 10 }).pointsHistory =
        [{ timestamp := ts, delta := -5, reason := "redeem:🍭 Lollipop" }] := by
  refine ⟨rfl, rfl, rfl, ?_⟩
  show [({ timestamp := ts, delta := -5, reason := "redeem:" ++ "🍭 Lollipop" } : PointsEntry)] = _
  simp

/-- C10: loading the persisted profile never fails: a missing or unparseable
stored value yields the empty profile, and a parsed object is hydrated with
`points` defaulting to 0 and the four sequences defaulting to empty, while
every field present in the stored object is preserved. -/
theorem loadStoredPlayer_defaults :
    loadStoredPlayer .missing = createEmptyPlayer
    ∧ loadStoredPlayer .unparseable = createEmptyPlayer
    ∧ ∀ d : PartialPlayer,
        loadStoredPlayer (.parsed d) =
          { name := d.name.getD "", age := d.age.getD none,
            avatarUrl := d.avatarUrl.getD none,
            points := d.points.getD 0,
            learningProfile := d.learningProfile.getD [],
            gameResults := d.gameResults.getD [],
            pointsHistory := d.pointsHistory.getD [],
            inventory := d.inventory.getD [] } :=
  ⟨rfl, rfl, fun _ => rfl⟩

/-! ## C6 -/

/-- C6: submitting a limit `m > 0` installs
`{limitMinutes: m, remainingSeconds: m*60, isActive: true}`; `m ≤ 0` or an
absent/non-numeric value clears the limit (`isActive: false`,
`remainingSeconds: 0`, no limit in force); `onSetScreenTime` is the
installing branch. -/
theorem setScreenTimeLimit_behavior (m : Int) :
    (handleScreenTimeSubmit (some m) =
      if 0 < m then
        { limitMinutes := some m, remainingSeconds := m * 60, isActive := true }
      else
        { limitMinutes := none, remainingSeconds := 0, isActive := false })
    ∧ handleScreenTimeSubmit none =
        { limitMinutes := none, remainingSeconds := 0, isActive := false }
    ∧ onSetScreenTime m =
        { limitMinutes := some m, remainingSeconds := m * 60, isActive := true } := by
  refine ⟨?_, rfl, rfl⟩
  by_cases h : m ≤ 0
  · simp [handleScreenTimeSubmit, h, not_lt.mpr h]
  · simp [handleScreenTimeSubmit, h, lt_of_not_le h]

/-! ## C8 -/

/-- C8: play is permitted iff `limitMinutes` is null, or the countdown is
active with time remaining; immediately after submitting any fresh limit
`m > 0` (through either set-limit path) play is permitted. -/
theorem playGate_characterization (st : ScreenTimeState) (m : Int) (hm : 0 < m) :
    (canPlay st = true ↔
      (st.limitMinutes = none ∨ (st.isActive = true ∧ 0 < st.remainingSeconds)))
    ∧ canPlay (handleScreenTimeSubmit (some m)) = true
    ∧ canPlay (onSetScreenTime m) = true := by
  refine ⟨?_, ?_, ?_⟩
  · obtain ⟨lm, rs, ia⟩ := st
    cases lm <;> cases ia <;>
      simp [canPlay, isLockedByScreenTime, Option.isSome]
  · have h : ¬ m ≤ 0 := not_le.mpr hm
    simp only [handleScreenTimeSubmit, if_neg h]
    simp [canPlay, isLockedByScreenTime, Option.isSome]
    omega
  · simp [canPlay, isLockedByScreenTime, onSetScreenTime, Option.isSome]
    omega

/-- Witness for C8 at a concrete state and limit. -/
theorem playGate_characterization_witness :
    (canPlay { limitMinutes := none, remainingSeconds := 0, isActive := false } = true ↔
      ((none : Option Int) = none ∨ (false = true ∧ (0:Int) < 0)))
    ∧ canPlay (handleScreenTimeSubmit (some 5)) = true
    ∧ canPlay (onSetScreenTime 5) = true :=
  playGate_characterization
    { limitMinutes := none, remainingSeconds := 0, isActive := false } 5 (by decide)

/-! ## C7 -/

theorem screenTimeTick_closed_form (k : Nat) (hk : k ≤ 299) :
    screenTimeTick^[k] (onSetScreenTime 5) =
      { limitMinutes := some 5, remainingSeconds := 300 - (k : Int), isActive := true } := by
  induction k with
  | zero =>
    simp only [Function.iterate_zero, id]
    decide
  | succ n ih =>
    rw [Function.iterate_succ_apply', ih (by omega)]
    have h1 : (true = true ∧ (0:Int) < 300 - (n : Int)) := ⟨rfl, by omega⟩
    have h2 : ¬ (300 - (n : Int) - 1 ≤ 0) := by omega
    simp only [screenTimeTick, h1, and_self, if_true, if_pos, h2, if_neg,
      not_false_eq_true]
    simp only [ScreenTimeState.mk.injEq, true_and, and_true]
    push_cast
    ring

/-- C7: from the state produced by setting limit `m = 5`
(`remainingSeconds = 300`, `isActive = true`), each tick decrements
`remainingSeconds` while active and positive; after 300 ticks the state is
`remainingSeconds = 0`, `isActive = false`, the failure cue having fired
exactly on the expiring (300th) tick, and every further tick is a no-op. -/
theorem screenTime_countdown_five_minutes :
    (∀ k : Nat, k < 300 →
      screenTimeTick^[k] (onSetScreenTime 5) =
        { limitMinutes := some 5, remainingSeconds := 300 - (k : Int), isActive := true })
    ∧ screenTimeTick^[300] (onSetScreenTime 5) =
        { limitMinutes := some 5, remainingSeconds := 0, isActive := false }
    ∧ (∀ k : Nat, k < 300 →
        (tickPlaysFailCue (screenTimeTick^[k] (onSetScreenTime 5)) = true ↔ k = 299))
    ∧ (∀ j : Nat,
        screenTimeTick^[j] (screenTimeTick^[300] (onSetScreenTime 5)) =
          screenTimeTick^[300] (onSetScreenTime 5)) := by
  have h300 : screenTimeTick^[300] (onSetScreenTime 5) =
      { limitMinutes := some 5, remainingSeconds := 0, isActive := false } := by
    have : (300 : Nat) = 299 + 1 := by norm_num
    rw [this, Function.iterate_succ_apply', screenTimeTick_closed_form 299 (by norm_num)]
    norm_num
    decide
  refine ⟨fun k hk => screenTimeTick_closed_form k (by omega), h300, ?_, ?_⟩
  · intro k hk
    rw [screenTimeTick_closed_form k (by omega)]
    simp [tickPlaysFailCue]
    omega
  · intro j
    rw [h300]
    exact Function.iterate_fixed (by decide) j

/-- Witness for C7 (closed instances of each quantified part). -/
theorem screenTime_countdown_five_minutes_witness :
    (screenTimeTick^[1] (onSetScreenTime 5) =
      { limitMinutes := some 5, remainingSeconds := 300 - ((1 : Nat) : Int),
        isActive := true })
    ∧ screenTimeTick^[300] (onSetScreenTime 5) =
        { limitMinutes := some 5, remainingSeconds := 0, isActive := false }
    ∧ (tickPlaysFailCue (screenTimeTick^[299] (onSetScreenTime 5)) = true ↔ 299 = 299)
    ∧ screenTimeTick^[2] (screenTimeTick^[300] (onSetScreenTime 5)) =
        screenTimeTick^[300] (onSetScreenTime 5) :=
  ⟨screenTime_countdown_five_minutes.1 1 (by decide),
   screenTime_countdown_five_minutes.2.1,
   screenTime_countdown_five_minutes.2.2.1 299 (by decide),
   screenTime_countdown_five_minutes.2.2.2 2⟩

/-! ## C3 machinery -/

theorem lpGet_lpAdd (lp : List (String × ℚ)) (k k' : String) (v : ℚ) :
    lpGet (lpAdd lp k v) k' = lpGet lp k' + (if k = k' then v else 0) := by
  induction lp with
  | nil =>
    by_cases h : k = k' <;> simp [lpAdd, lpGet, h]
  | cons hd tl ih =>
    obtain ⟨hk, hv⟩ := hd
    by_cases h1 : hk = k
    · subst h1
      by_cases h2 : hk = k' <;> simp [lpAdd, lpGet, h2]
    · by_cases h2 : hk = k'
      · subst h2
        have hkk : ¬ k = hk := fun h => h1 h.symm
        simp [lpAdd, lpGet, h1, hkk]
      · simp [lpAdd, lpGet, h1, h2, ih]

theorem lpGet_foldl_tags (l : List String) (s : ℚ) (lp : List (String × ℚ)) (k : String) :
    lpGet (l.foldl (fun acc t => lpAdd acc t s) lp) k =
      lpGet lp k + s * (l.count k : ℚ) := by
  induction l generalizing lp with
  | nil => simp
  | cons hd tl ih =>
    rw [List.foldl_cons, ih, lpGet_lpAdd]
    by_cases h : hd = k
    · simp [List.count_cons, h]
      ring
    · simp [List.count_cons, h]

theorem lpGet_foldl_entries (es : List (String × Int)) (lp : List (String × ℚ))
    (k : String) :
    lpGet (es.foldl (fun acc kv => lpAdd acc kv.1 (kv.2 : ℚ)) lp) k =
      lpGet lp k + entrySumQ es k := by
  induction es generalizing lp with
  | nil => simp [entrySumQ]
  | cons hd tl ih =>
    rw [List.foldl_cons, ih, lpGet_lpAdd]
    simp [entrySumQ]
    ring

theorem recordGameResult_lpGet (gameId : String) (score : ℚ) (attempts : Int)
    (goals : Option Goals) (metrics : Option Metrics) (ts : Int)
    (prev : PlayerProfile) (k : String) :
    lpGet (recordGameResult gameId score attempts goals metrics ts prev).learningProfile k =
      lpGet prev.learningProfile k + lpDelta score attempts goals metrics k := by
  unfold recordGameResult lpDelta tagCount
  cases goals with
  | none => simp [lpGet_foldl_entries]
  | some g =>
    simp only [lpGet_foldl_entries, lpGet_foldl_tags]
    push_cast
    ring

theorem entrySumQ_derived_eq_zero (d : Derived) (t : String) (ht : t ∉ metricKeys) :
    entrySumQ (derivedEntries d) t = 0 := by
  have h1 : ¬ t = "concentration" := fun h => ht (by simp [metricKeys, h])
  have h2 : ¬ t = "accuracy" := fun h => ht (by simp [metricKeys, h])
  have h3 : ¬ t = "reactionScore" := fun h => ht (by simp [metricKeys, h])
  have h4 : ¬ t = "persistence" := fun h => ht (by simp [metricKeys, h])
  have e1 : ("concentration" = t) = False := eq_false fun h => h1 h.symm
  have e2 : ("accuracy" = t) = False := eq_false fun h => h2 h.symm
  have e3 : ("reactionScore" = t) = False := eq_false fun h => h3 h.symm
  have e4 : ("persistence" = t) = False := eq_false fun h => h4 h.symm
  obtain ⟨c, a, r, p⟩ := d
  cases c <;> cases a <;> cases r <;> cases p <;>
    simp [derivedEntries, entrySumQ, e1, e2, e3, e4]

/-- C3: one `recordGameResult` call adds the score to `learningProfile[t]`
once per occurrence of `t` across the three goal lists (no deduplication),
and replaying the identical call twice exactly doubles every
`learningProfile` increment. -/
theorem learningProfile_accumulation (prev : PlayerProfile) (gameId : String)
    (score : ℚ) (attempts : Int) (goals : Option Goals) (metrics : Option Metrics)
    (ts : Int) (t u : String) (ht : t ∉ metricKeys) :
    (lpGet (recordGameResult gameId score attempts goals metrics ts prev).learningProfile t =
      lpGet prev.learningProfile t + score * (tagCount goals t : ℚ))
    ∧ (lpGet (recordGameResult gameId score attempts goals metrics ts
          (recordGameResult gameId score attempts goals metrics ts prev)).learningProfile u
        - lpGet prev.learningProfile u
      = 2 * (lpGet (recordGameResult gameId score attempts goals metrics ts
          prev).learningProfile u - lpGet prev.learningProfile u)) := by
  constructor
  · rw [recordGameResult_lpGet]
    unfold lpDelta
    rw [entrySumQ_derived_eq_zero _ _ ht]
    ring
  · rw [recordGameResult_lpGet, recordGameResult_lpGet]
    ring

/-- Witness for C3: the tag "Focus" appears in both the montessori and the
waldorf lists, so one call increments it by `2 * score`; replaying doubles. -/
theorem learningProfile_accumulation_witness :
    (lpGet (recordGameResult "memory" 10 1 (some focusGoals) none 0
        createEmptyPlayer).learningProfile "Focus" =
      lpGet createEmptyPlayer.learningProfile "Focus" +
        10 * (tagCount (some focusGoals) "Focus" : ℚ))
    ∧ (lpGet (recordGameResult "memory" 10 1 (some focusGoals) none 0
          (recordGameResult "memory" 10 1 (some focusGoals) none 0
            createEmptyPlayer)).learningProfile "Focus"
        - lpGet createEmptyPlayer.learningProfile "Focus"
      = 2 * (lpGet (recordGameResult "memory" 10 1 (some focusGoals) none 0
          createEmptyPlayer).learningProfile "Focus"
        - lpGet createEmptyPlayer.learningProfile "Focus")) :=
  learningProfile_accumulation createEmptyPlayer "memory" 10 1
    (some focusGoals) none 0 "Focus" "Focus" (by decide)

/-! ## C5, C9 machinery -/

theorem metricsOk_fields {m : Metrics} (hm : metricsOk (some m) = true) :
    (∀ x, m.avgHoldTime = some x → 0 ≤ x) ∧ (∀ x, m.concentration = some x → 0 ≤ x) ∧
    (∀ x, m.accuracy = some x → 0 ≤ x) ∧ (∀ x, m.reactionScore = some x → 0 ≤ x) ∧
    (∀ x, m.persistence = some x → 0 ≤ x) := by
  simp only [metricsOk, Bool.and_eq_true] at hm
  obtain ⟨⟨⟨⟨h1, h2⟩, h3⟩, h4⟩, h5⟩ := hm
  refine ⟨?_, ?_, ?_, ?_, ?_⟩
  · intro x hx; rw [hx] at h1; simpa [optNonneg] using h1
  · intro x hx; rw [hx] at h2; simpa [optNonneg] using h2
  · intro x hx; rw [hx] at h3; simpa [optNonneg] using h3
  · intro x hx; rw [hx] at h4; simpa [optNonneg] using h4
  · intro x hx; rw [hx] at h5; simpa [optNonneg] using h5

theorem concentration_getD_nonneg (score : ℚ) (attempts : Int) (metrics : Option Metrics)
    (hm : metricsOk metrics = true) :
    0 ≤ (deriveMetrics score attempts metrics).concentration.getD 0 := by
  cases metrics with
  | none => simp [deriveMetrics]
  | some m =>
    have hf := metricsOk_fields hm
    cases haht : m.avgHoldTime with
    | some a =>
      have ha : 0 ≤ a := hf.1 a haht
      simp only [deriveMetrics, Option.some_bind, haht, Option.getD_some]
      exact min100_nonneg (jsRound_nonneg
        (mul_nonneg (div_nonneg ha (by norm_num)) (by norm_num)))
    | none =>
      cases hconc : m.concentration with
      | some c =>
        have hc : 0 ≤ c := hf.2.1 c hconc
        simp only [deriveMetrics, Option.some_bind, haht, hconc, Option.getD_some]
        exact min100_nonneg (jsRound_nonneg hc)
      | none => simp [deriveMetrics, haht, hconc]

theorem accuracy_getD_nonneg (score : ℚ) (attempts : Int) (metrics : Option Metrics)
    (hs : 0 ≤ score) (hm : metricsOk metrics = true) :
    0 ≤ (deriveMetrics score attempts metrics).accuracy.getD 0 := by
  have hafc : (0:ℚ) ≤ ((max 1 attempts : Int) : ℚ) := by
    have : (0:Int) ≤ max 1 attempts := le_trans (by norm_num) (le_max_left 1 attempts)
    exact_mod_cast this
  have hprod : (0:ℚ) ≤ score / 100 * 100 * (1 / ((max 1 attempts : Int) : ℚ)) * (3/2) :=
    mul_nonneg (mul_nonneg (mul_nonneg (div_nonneg hs (by norm_num)) (by norm_num))
      (one_div_nonneg.mpr hafc)) (by norm_num)
  cases metrics with
  | none =>
    simp only [deriveMetrics, Option.none_bind, Option.getD_some]
    exact min100_nonneg (jsRound_nonneg hprod)
  | some m =>
    have hf := metricsOk_fields hm
    cases hacc : m.accuracy with
    | some a =>
      have ha : 0 ≤ a := hf.2.2.1 a hacc
      simp only [deriveMetrics, Option.some_bind, hacc, Option.getD_some]
      exact min100_nonneg (jsRound_nonneg ha)
    | none =>
      simp only [deriveMetrics, Option.some_bind, hacc, Option.getD_some]
      exact min100_nonneg (jsRound_nonneg hprod)

theorem reactionScore_getD_nonneg (score : ℚ) (attempts : Int) (metrics : Option Metrics)
    (hs : 0 ≤ score) (hm : metricsOk metrics = true) :
    0 ≤ (deriveMetrics score attempts metrics).reactionScore.getD 0 := by
  have hbase : (0:ℚ) ≤ score * (9/10) := mul_nonneg hs (by norm_num)
  cases metrics with
  | none =>
    simp only [deriveMetrics, Option.none_bind, Option.getD_some]
    exact min100_nonneg (jsRound_nonneg hbase)
  | some m =>
    have hf := metricsOk_fields hm
    cases hrs : m.reactionScore with
    | some r =>
      have hr : 0 ≤ r := hf.2.2.2.1 r hrs
      simp only [deriveMetrics, Option.some_bind, hrs, Option.getD_some]
      exact min100_nonneg (jsRound_nonneg hr)
    | none =>
      simp only [deriveMetrics, Option.some_bind, hrs, Option.getD_some]
      exact min100_nonneg (jsRound_nonneg hbase)

theorem bonusPoints_nonneg (score : ℚ) (attempts : Int) (metrics : Option Metrics)
    (hs : 0 ≤ score) (hm : metricsOk metrics = true) :
    0 ≤ bonusPoints (deriveMetrics score attempts metrics) := by
  have h1 := concentration_getD_nonneg score attempts metrics hm
  have h2 := accuracy_getD_nonneg score attempts metrics hs hm
  have h3 := reactionScore_getD_nonneg score attempts metrics hs hm
  unfold bonusPoints
  apply jsRound_nonneg
  have hsum : (0:ℚ) ≤
      (((deriveMetrics score attempts metrics).concentration.getD 0 +
        (deriveMetrics score attempts metrics).accuracy.getD 0 +
        (deriveMetrics score attempts metrics).reactionScore.getD 0 : Int) : ℚ) := by
    exact_mod_cast add_nonneg (add_nonneg h1 h2) h3
  exact mul_nonneg (div_nonneg hsum (by norm_num)) (by norm_num)

theorem earnedPoints_one_le (score : ℚ) (attempts : Int) (metrics : Option Metrics)
    (hs : 0 ≤ score) (hm : metricsOk metrics = true) :
    1 ≤ earnedPoints score attempts metrics := by
  have hb : (1:Int) ≤ basePoints score := le_max_left 1 _
  have hbonus := bonusPoints_nonneg score attempts metrics hs hm
  unfold earnedPoints
  omega

/-! ## C9 -/

/-- C9: for every completed round with non-negative score (and the
non-negative raw metrics every game emits), the award is at least 1 point —
`basePoints = max(1, round(score/12)) ≥ 1` and the bonus is non-negative —
so every game completion strictly increases the points total. -/
theorem earnedPoints_at_least_one (gameId : String) (score : ℚ) (attempts : Int)
    (goals : Option Goals) (metrics : Option Metrics) (ts : Int)
    (prev : PlayerProfile) (hs : 0 ≤ score) (hm : metricsOk metrics = true) :
    1 ≤ earnedPoints score attempts metrics ∧
    prev.points <
      (recordGameResult gameId score attempts goals metrics ts prev).points := by
  have h := earnedPoints_one_le score attempts metrics hs hm
  refine ⟨h, ?_⟩
  have hpts : (recordGameResult gameId score attempts goals metrics ts prev).points =
      prev.points + earnedPoints score attempts metrics := rfl
  omega

/-- Witness for C9 at a concrete round (score 80, avgHoldTime 2). -/
theorem earnedPoints_at_least_one_witness :
    1 ≤ earnedPoints 80 5
        (some { avgHoldTime := some 2, concentration := none, accuracy := none,
                reactionScore := none, persistence := none }) ∧
    createEmptyPlayer.points <
      (recordGameResult "memory" 80 5 (some focusGoals)
        (some { avgHoldTime := some 2, concentration := none, accuracy := none,
                reactionScore := none, persistence := none }) 0
        createEmptyPlayer).points :=
  earnedPoints_at_least_one "memory" 80 5 (some focusGoals)
    (some { avgHoldTime := some 2, concentration := none, accuracy := none,
            reactionScore := none, persistence := none }) 0 createEmptyPlayer
    (by decide) (by decide)

/-! ## C5 -/

theorem applyEvent_step (p : PlayerProfile) (e : AppEvent)
    (he : eventOk e = true) (hp : 0 ≤ p.points) :
    0 ≤ (applyEvent p e).points ∧
    (applyEvent p e).inventory.length =
      p.inventory.length + (if isRedeemEvent e then 1 else 0) := by
  cases e with
  | game gid s a g m ts =>
    simp only [eventOk, Bool.and_eq_true, decide_eq_true_eq] at he
    have h1 := earnedPoints_one_le s a m he.1 he.2
    have hpts : (applyEvent p (.game gid s a g m ts)).points =
        p.points + earnedPoints s a m := rfl
    have hinv : (applyEvent p (.game gid s a g m ts)).inventory = p.inventory := rfl
    refine ⟨by omega, ?_⟩
    simp [hinv, isRedeemEvent]
  | redeem c pr ts =>
    have hpts : (applyEvent p (.redeem c pr ts)).points = max 0 (p.points - c) := rfl
    have hinv : (applyEvent p (.redeem c pr ts)).inventory = p.inventory ++ [pr] := rfl
    refine ⟨by omega, ?_⟩
    simp [hinv, isRedeemEvent]

theorem foldl_applyEvent_invariant (evs : List AppEvent) :
    ∀ p : PlayerProfile, (∀ e ∈ evs, eventOk e = true) → 0 ≤ p.points →
      0 ≤ (evs.foldl applyEvent p).points ∧
      (evs.foldl applyEvent p).inventory.length =
        p.inventory.length + evs.countP isRedeemEvent := by
  induction evs with
  | nil => intro p _ hp; simpa using hp
  | cons e tl ih =>
    intro p h hp
    have he : eventOk e = true := h e (by simp)
    have htl : ∀ x ∈ tl, eventOk x = true := fun x hx => h x (by simp [hx])
    have step := applyEvent_step p e he hp
    obtain ⟨ih1, ih2⟩ := ih (applyEvent p e) htl step.1
    rw [List.foldl_cons]
    refine ⟨ih1, ?_⟩
    rw [ih2, step.2, List.countP_cons]
    by_cases hre : isRedeemEvent e <;> simp [hre] <;> omega

/-- C5: starting from the empty profile, after any sequence of well-formed
game completions and redemptions the (integer) points total is never below 0,
and the inventory length equals the number of redemptions performed. -/
theorem points_nonneg_inventory_count (evs : List AppEvent)
    (h : ∀ e ∈ evs, eventOk e = true) :
    0 ≤ (runEvents evs).points ∧
    (runEvents evs).inventory.length = evs.countP isRedeemEvent := by
  have := foldl_applyEvent_invariant evs createEmptyPlayer h (le_refl 0)
  simpa [runEvents, createEmptyPlayer] using this

/-- Witness for C5 on a concrete two-event history (one round, one
redemption). -/
theorem points_nonneg_inventory_count_witness :
    0 ≤ (runEvents [.game "memory" 80 5 (some focusGoals) none 0,
          .redeem 5 "🍭 Lollipop" 1]).points ∧
    (runEvents [.game "memory" 80 5 (some focusGoals) none 0,
          .redeem 5 "🍭 Lollipop" 1]).inventory.length =
      ([.game "memory" 80 5 (some focusGoals) none 0,
          .redeem 5 "🍭 Lollipop" 1] : List AppEvent).countP isRedeemEvent :=
  points_nonneg_inventory_count
    [.game "memory" 80 5 (some focusGoals) none 0, .redeem 5 "🍭 Lollipop" 1]
    (by decide)
